import Mathlib

/-!
Shallow embedding of the Waffle Sudoku front end (the `Game` component of
`src/components/Game.tsx`).

The board is a 9 by 9 grid of cells rendered as a 3 by 3 grid of "parent
cells" (boxes), each holding a 3 by 3 grid of "inner cells".  A cell button
carries its content as text (`innerText` / `innerHTML`, empty string for a
blank cell, a digit otherwise) and DOM attributes `data-locked`, `selected`,
`selected-related`, `selected-related-number` and `error`.  We model the
text content as a natural number with `0` for the empty string, and each
attribute as a boolean field.

React state (`selectedCell`, `actionHistory`, `unsolvedBoard`, `hintCount`,
`timer`, `gameFinished`, `timeStarted`, `boardID`, `difficulty`) lives in
`GameState`; each event handler becomes a function `GameState → GameState`.
The handlers read their own closure values, so within one handler all reads
see the pre-event state, exactly as the source does.  Network effects
(fetch of boards, hints, solution checks) are the asynchronous boundary:
their successful responses are passed to the corresponding handler as an
explicit argument, and wall-clock timestamps are abstracted to a `Nat`
parameter.
-/

/-- One inner cell button of the grid: its numeric content (`0` encodes the
empty `innerText`) and its DOM attributes. -/
@[ext]
structure Cell where
  value : Nat
  locked : Bool
  selected : Bool
  related : Bool
  relatedNumber : Bool
  error : Bool
  deriving DecidableEq

/-- The 9 by 9 grid of cell buttons, addressed by (row, column). -/
abbrev Board := Fin 9 → Fin 9 → Cell

/-- `PlayerAction` from Game.tsx: the cell a value was entered into and the
previous value (`none` models the JavaScript `null` recorded for an empty
cell). -/
structure PlayerAction where
  cell : Fin 9 × Fin 9
  value : Option Nat
  deriving DecidableEq

/-- The React state of the `Game` component.  `unsolvedBoard` is `none` for
the initial empty array `[]` and `some g` once a grid has been cached. -/
@[ext]
structure GameState where
  board : Board
  selectedCell : Option (Fin 9 × Fin 9)
  actionHistory : List PlayerAction
  unsolvedBoard : Option (Fin 9 → Fin 9 → Nat)
  hintCount : Int
  timer : Nat
  timeStarted : Option Nat
  finished : Bool
  boardID : Nat
  difficulty : String

/-- `defaultStarterHints` from Game.tsx. -/
def defaultStarterHints : Int := 5

/-! ## Coordinate mapper

`getCellPosition` converts the DOM position (parent cell index = box,
inner cell index = position within the box) to global row and column
indices; `getInnerCellButton` converts global (x, y) coordinates back to
the DOM indices.  Both use `boxSize = 3`. -/

/-- The (row, column) computed by `getCellPosition` from a parent cell index
(box) and inner cell index:
`innerRowIndex = parentRow * 3 + innerRow`, `innerColIndex = parentCol * 3 + innerCol`. -/
def toRowCol (box inBox : Nat) : Nat × Nat :=
  (box / 3 * 3 + inBox / 3, box % 3 * 3 + inBox % 3)

/-- The (cellIndex, innerCellIndex) pair computed by `getInnerCellButton`
from global coordinates (x, y):
`cellIndex = (x / 3) * 3 + (y / 3)`, `innerCellIndex = (x % 3) * 3 + (y % 3)`. -/
def toBoxInBox (x y : Nat) : Nat × Nat :=
  (x / 3 * 3 + y / 3, x % 3 * 3 + y % 3)

/-- The grid position of the button returned by `getInnerCellButton a b`:
the button at DOM indices `toBoxInBox a b`, re-read through
`getCellPosition` (that is, `toRowCol` applied to those DOM indices). -/
def hintTarget (a b : Fin 9) : Fin 9 × Fin 9 :=
  (⟨(a.val / 3 * 3 + b.val / 3) / 3 * 3 + (a.val % 3 * 3 + b.val % 3) / 3, by
      have ha := a.isLt; have hb := b.isLt; omega⟩,
   ⟨(a.val / 3 * 3 + b.val / 3) % 3 * 3 + (a.val % 3 * 3 + b.val % 3) % 3, by
      have ha := a.isLt; have hb := b.isLt; omega⟩)

/-! ## Board snapshots and the violation detector -/

/-- `getBoardState(includeUserInput)`: the 9 by 9 numeric snapshot.  A cell
contributes its value when (`includeUserInput` or it is locked) and its
content is nonempty, and `0` otherwise. -/
def getBoardStateVals (includeUserInput : Bool) (b : Board) : Fin 9 → Fin 9 → Nat :=
  fun i j =>
    if (includeUserInput || (b i j).locked) && decide ((b i j).value ≠ 0) then
      (b i j).value
    else 0

/-- The duplicate scan of `selectInnerCell`: for the cell at (r, c) with
content `board[r][c]`, scan its row (skipping column c), its column
(skipping row r) and its 3 by 3 box (skipping (r, c) itself) for an equal
value.  The box loop of the source runs over
`boxStartRow ≤ i < boxStartRow + 3` with `boxStartRow = (r / 3) * 3`,
i.e. exactly the indices with `i / 3 = r / 3`, and similarly for columns. -/
def hasDuplicate (v : Fin 9 → Fin 9 → Nat) (r c : Fin 9) : Bool :=
  ((List.finRange 9).any fun j => decide (j ≠ c) && decide (v r j = v r c)) ||
  ((List.finRange 9).any fun i => decide (i ≠ r) && decide (v i c = v r c)) ||
  ((List.finRange 9).any fun i => (List.finRange 9).any fun j =>
    decide (i.val / 3 = r.val / 3) && decide (j.val / 3 = c.val / 3) &&
    (decide (i ≠ r) || decide (j ≠ c)) && decide (v i j = v r c))

/-- The completion check of `handleNumberInput`: every cell button has no
`error` attribute and a nonempty content. -/
def isBoardComplete (b : Board) : Bool :=
  (List.finRange 9).all fun i => (List.finRange 9).all fun j =>
    !(b i j).error && decide ((b i j).value ≠ 0)

/-! ## Highlighting -/

/-- `clearBoardHighlighting(clearError)`: remove `selected`,
`selected-related` and `selected-related-number` from every cell, and also
`error` when `clearError` is true. -/
def clearBoardHighlighting (clearError : Bool) (b : Board) : Board :=
  fun i j =>
    { b i j with
      selected := false, related := false, relatedNumber := false,
      error := if clearError then false else (b i j).error }

/-- Steps 3 to 6 of `selectInnerCell` (run right after
`clearBoardHighlighting()`): mark the cell at (qi, qj) `selected`; mark its
box mates and the rest of its row and column `selected-related`; when the
selected cell is nonempty, mark every other cell with the same content
`selected-related-number`. -/
def applyHighlights (qi qj : Fin 9) (b : Board) : Board :=
  fun i j =>
    { b i j with
      selected := decide (i = qi ∧ j = qj),
      related := decide (¬(i = qi ∧ j = qj)) &&
        ((decide (i.val / 3 = qi.val / 3) && decide (j.val / 3 = qj.val / 3)) ||
          decide (i = qi) || decide (j = qj)),
      relatedNumber := decide (¬(i = qi ∧ j = qj)) &&
        decide ((b qi qj).value ≠ 0) && decide ((b i j).value = (b qi qj).value) }

/-- The error clearing pass of `selectInnerCell`: every cell matching
`[selected][error], [selected-related][error]` loses its `error` attribute
when its content is empty or the duplicate scan against the live board
(`getBoardState()`) finds no duplicate. -/
def errorClearPass (b : Board) : Board :=
  fun i j =>
    if ((b i j).selected || (b i j).related) && (b i j).error then
      if (b i j).value = 0 then { b i j with error := false }
      else if hasDuplicate (getBoardStateVals true b) i j then b i j
      else { b i j with error := false }
    else b i j

/-- The guard of the final error pass: the nonempty contents of all cells
matching `[selected], [selected-related]` other than the selected cell
itself contain the selected cell's content. -/
def markTrigger (qi qj : Fin 9) (b : Board) : Bool :=
  (List.finRange 9).any fun i => (List.finRange 9).any fun j =>
    ((b i j).selected || (b i j).related) && decide (¬(i = qi ∧ j = qj)) &&
    decide ((b i j).value ≠ 0) && decide ((b i j).value = (b qi qj).value)

/-- The final error pass of `selectInnerCell`: when the guard fires, every
`[selected], [selected-related]` cell whose content equals the selected
cell's content gains the `error` attribute. -/
def errorMarkPass (qi qj : Fin 9) (b : Board) : Board :=
  if markTrigger qi qj b then
    fun i j =>
      if ((b i j).selected || (b i j).related) && decide ((b i j).value = (b qi qj).value) then
        { b i j with error := true }
      else b i j
  else b

/-- `selectInnerCell`: store the selection, clear previous highlighting,
apply the new highlight attributes, run the error clearing pass, then the
final error pass. -/
def selectInnerCell (qi qj : Fin 9) (s : GameState) : GameState :=
  let b2 := applyHighlights qi qj (clearBoardHighlighting false s.board)
  { s with board := errorMarkPass qi qj (errorClearPass b2),
           selectedCell := some (qi, qj) }

/-! ## Input, undo, hint, session handlers -/

/-- Write value `v` into the cell at (qi, qj) (`0` clears the content),
leaving every attribute and every other cell unchanged. -/
def setCellValue (qi qj : Fin 9) (v : Nat) (b : Board) : Board :=
  fun i j => if i = qi ∧ j = qj then { b i j with value := v } else b i j

/-- `handleNumberInput(number)`: when a cell is selected and not locked,
record `{cell, previousValue}` and overwrite the content whenever the
JavaScript strict comparison `previousValue !== number` holds (the previous
value is `null` for an empty cell), re-select the cell, then run the
completion check and, when it passes, finish the game. -/
def handleNumberInput (n : Nat) (s : GameState) : GameState :=
  match s.selectedCell with
  | none => s
  | some q =>
    if (s.board q.1 q.2).locked then s
    else
      let previousValue : Option Nat :=
        if (s.board q.1 q.2).value = 0 then none else some (s.board q.1 q.2).value
      let s1 : GameState :=
        if previousValue ≠ some n then
          { s with
            actionHistory := s.actionHistory ++ [⟨q, previousValue⟩],
            board := setCellValue q.1 q.2 (if n = 0 then 0 else n) s.board }
        else s
      let s2 := selectInnerCell q.1 q.2 s1
      if isBoardComplete s2.board then { s2 with finished := true } else s2

/-- `handleUndoAction`: when the history is nonempty and the last recorded
cell is not locked, restore the recorded previous value (JavaScript
`value ? value.toString() : ""`, so `null` restores the empty content),
pop the entry, drop the cell's `error` attribute, and then either re-select
the cell of the entry now on top of the stack or clear all highlighting
(including errors) and deselect. -/
def handleUndoAction (s : GameState) : GameState :=
  match s.actionHistory.getLast? with
  | none => s
  | some a =>
    if (s.board a.cell.1 a.cell.2).locked then s
    else
      let restored : Nat := match a.value with | some v => v | none => 0
      let b1 : Board := fun i j =>
        if i = a.cell.1 ∧ j = a.cell.2 then
          { s.board i j with value := restored, error := false }
        else s.board i j
      let s1 : GameState := { s with board := b1, actionHistory := s.actionHistory.dropLast }
      match s.actionHistory.dropLast.getLast? with
      | some a2 => selectInnerCell a2.cell.1 a2.cell.2 s1
      | none => { s1 with board := clearBoardHighlighting true s1.board, selectedCell := none }

/-- `fillGrid(grid)`: nonzero grid entries lock the cell and set its
content; zero entries unlock the cell and empty it. -/
def fillGrid (g : Fin 9 → Fin 9 → Nat) (b : Board) : Board :=
  fun i j =>
    if g i j ≠ 0 then { b i j with locked := true, value := g i j }
    else { b i j with locked := false, value := 0 }

/-- `handleGameExit`: mark the game finished, reset the timer and start
time, clear the board id, the cached unsolved board and the difficulty, and
fill the grid with zeros.  (The overlay configuration is pure presentation
and is not modelled.) -/
def handleGameExit (s : GameState) : GameState :=
  { s with
    finished := true, timer := 0, timeStarted := none, boardID := 0,
    unsolvedBoard := none, difficulty := "",
    board := fillGrid (fun _ _ => 0) s.board }

/-- `handleGameStart` with a successful fetch response
`{id, value := g, difficulty}` arriving at time `t`: deselect, clear all
highlighting, reset timer, hints and history, cache and fill the fetched
grid, and mark the game running. -/
def handleGameStartSuccess (id : Nat) (diff : String) (t : Nat)
    (g : Fin 9 → Fin 9 → Nat) (s : GameState) : GameState :=
  { s with
    selectedCell := none,
    board := fillGrid g (clearBoardHighlighting true s.board),
    timeStarted := some t, timer := 0,
    hintCount := defaultStarterHints, actionHistory := [],
    boardID := id, difficulty := diff, unsolvedBoard := some g,
    finished := false }

/-- The hint endpoint response
`{parentCellIndex, innerCellIndex, hint}`.  The handler passes the two
indices to `getInnerCellButton` as (x, y) coordinates. -/
structure HintAPIResponse where
  parentCellIndex : Fin 9
  innerCellIndex : Fin 9
  hint : Nat

/-- The successful-response continuation of `handleHint`: write the hint
into the target cell's content, set `data-locked`, cache
`getBoardState(false)` (locked cells only) as the unsolved board, and
select the cell. -/
def applyHintSuccess (r : HintAPIResponse) (s : GameState) : GameState :=
  let q := hintTarget r.parentCellIndex r.innerCellIndex
  let b1 : Board := fun i j =>
    if i = q.1 ∧ j = q.2 then { s.board i j with value := r.hint, locked := true }
    else s.board i j
  selectInnerCell q.1 q.2 { s with board := b1, unsolvedBoard := some (getBoardStateVals false b1) }

/-- `handleHint` with response `r`: when `hintCount <= 0`, only the shake
animation runs (pure presentation) and the state is returned unchanged;
otherwise the budget is decremented and the response applied. -/
def handleHint (r : HintAPIResponse) (s : GameState) : GameState :=
  if s.hintCount ≤ 0 then s
  else applyHintSuccess r { s with hintCount := s.hintCount - 1 }

/-- The reset-board button: `fillGrid(unsolvedBoard)`,
`clearBoardHighlighting(true)`, empty the history, deselect.  With the
initial empty `unsolvedBoard` array the source would fault on the array
access; that branch is left as the identity and is never reached from a
started game. -/
def resetBoardAction (s : GameState) : GameState :=
  match s.unsolvedBoard with
  | some g =>
    { s with
      board := clearBoardHighlighting true (fillGrid g s.board),
      actionHistory := [], selectedCell := none }
  | none => s

/-! ## Operation sequences -/

/-- The board-editing events named by the hint-immunity claim: number or
erase input, undo, and cell selection. -/
inductive EditOp where
  | input (n : Nat)
  | undo
  | select (i j : Fin 9)

/-- Apply one editing event. -/
def applyEditOp (s : GameState) : EditOp → GameState
  | .input n => handleNumberInput n s
  | .undo => handleUndoAction s
  | .select i j => selectInnerCell i j s

/-- Apply a sequence of editing events, oldest first. -/
def applyEditOps (s : GameState) : List EditOp → GameState
  | [] => s
  | op :: ops => applyEditOps (applyEditOp s op) ops

/-- All in-game events between a game start and a board reset: inputs,
undos, selections, successful hints (the response field `hint` ranges over
1..9 per the hint endpoint contract, encoded as `h.val + 1`), and board
resets. -/
inductive PlayOp where
  | input (n : Nat)
  | undo
  | select (i j : Fin 9)
  | hint (a b h : Fin 9)
  | reset

/-- Apply one in-game event. -/
def applyPlayOp (s : GameState) : PlayOp → GameState
  | .input n => handleNumberInput n s
  | .undo => handleUndoAction s
  | .select i j => selectInnerCell i j s
  | .hint a b h => handleHint ⟨a, b, h.val + 1⟩ s
  | .reset => resetBoardAction s

/-- Apply a sequence of in-game events, oldest first. -/
def applyPlayOps (s : GameState) : List PlayOp → GameState
  | [] => s
  | op :: ops => applyPlayOps (applyPlayOp s op) ops

/-! ## Derived notions and concrete states used in the verification -/

/-- The cells matching `[selected], [selected-related]` right after the
highlight attributes of `selectInnerCell` have been applied: a pure index
formula (the selected cell, its box, its row and its column). -/
def hlIdx (qi qj i j : Fin 9) : Bool :=
  decide (i = qi ∧ j = qj) ||
  (decide (¬(i = qi ∧ j = qj)) &&
    ((decide (i.val / 3 = qi.val / 3) && decide (j.val / 3 = qj.val / 3)) ||
      decide (i = qi) || decide (j = qj)))

/-- An empty, editable, unhighlighted cell. -/
def emptyCell : Cell := ⟨0, false, false, false, false, false⟩

/-- A board of 81 empty editable cells. -/
def emptyBoard : Board := fun _ _ => emptyCell

/-- A fresh-looking state with the empty board, the cell (0,0) selected and
a full hint budget. -/
def sampleBase : GameState :=
  ⟨emptyBoard, some (0, 0), [], none, defaultStarterHints, 0, none, false, 0, ""⟩

/-- A state mid-game: one history entry, two hints left. -/
def exitSample : GameState :=
  ⟨emptyBoard, some (0, 0), [⟨(0, 0), none⟩], none, 2, 7, some 3, false, 4, "Easy"⟩

/-- A state whose cell (1,1) is locked with value 7, with the editable cell
(0,0) selected. -/
def lockSample : GameState :=
  ⟨fun i j => if i.val = 1 && j.val = 1 then ⟨7, true, false, false, false, false⟩ else emptyCell,
   some (0, 0), [], none, defaultStarterHints, 0, none, false, 0, ""⟩

/-- A sample hint response. -/
def hintResp : HintAPIResponse := ⟨0, 0, 7⟩

/-- A constant value matrix: every cell duplicates every other. -/
def dupVals : Fin 9 → Fin 9 → Nat := fun _ _ => 7

/-- A sample fetched grid with a single given at (0,0). -/
def startGrid : Fin 9 → Fin 9 → Nat := fun i j => if i.val = 0 && j.val = 0 then 7 else 0

/-- The cached-snapshot invariant: the cached unsolved board is exactly the
locked-cells projection of the live board, and locked cells are never
empty. -/
def UnsolvedInv (s : GameState) : Prop :=
  ∃ g, s.unsolvedBoard = some g ∧
    (∀ i j, g i j = if (s.board i j).locked = true then (s.board i j).value else 0) ∧
    (∀ i j, (s.board i j).locked = true → (s.board i j).value ≠ 0)

/-! ## Pointwise facts about the highlight passes -/

@[simp]
lemma clearBoardHighlighting_value (ce : Bool) (b : Board) (i j : Fin 9) :
    (clearBoardHighlighting ce b i j).value = (b i j).value := rfl

@[simp]
lemma clearBoardHighlighting_locked (ce : Bool) (b : Board) (i j : Fin 9) :
    (clearBoardHighlighting ce b i j).locked = (b i j).locked := rfl

@[simp]
lemma clearBoardHighlighting_error (ce : Bool) (b : Board) (i j : Fin 9) :
    (clearBoardHighlighting ce b i j).error = if ce then false else (b i j).error := rfl

@[simp]
lemma applyHighlights_value (qi qj : Fin 9) (b : Board) (i j : Fin 9) :
    (applyHighlights qi qj b i j).value = (b i j).value := rfl

@[simp]
lemma applyHighlights_locked (qi qj : Fin 9) (b : Board) (i j : Fin 9) :
    (applyHighlights qi qj b i j).locked = (b i j).locked := rfl

@[simp]
lemma applyHighlights_error (qi qj : Fin 9) (b : Board) (i j : Fin 9) :
    (applyHighlights qi qj b i j).error = (b i j).error := rfl

@[simp]
lemma errorClearPass_value (b : Board) (i j : Fin 9) :
    (errorClearPass b i j).value = (b i j).value := by
  unfold errorClearPass; split_ifs <;> rfl

@[simp]
lemma errorClearPass_locked (b : Board) (i j : Fin 9) :
    (errorClearPass b i j).locked = (b i j).locked := by
  unfold errorClearPass; split_ifs <;> rfl

@[simp]
lemma errorClearPass_selected (b : Board) (i j : Fin 9) :
    (errorClearPass b i j).selected = (b i j).selected := by
  unfold errorClearPass; split_ifs <;> rfl

@[simp]
lemma errorClearPass_related (b : Board) (i j : Fin 9) :
    (errorClearPass b i j).related = (b i j).related := by
  unfold errorClearPass; split_ifs <;> rfl

@[simp]
lemma errorClearPass_relatedNumber (b : Board) (i j : Fin 9) :
    (errorClearPass b i j).relatedNumber = (b i j).relatedNumber := by
  unfold errorClearPass; split_ifs <;> rfl

@[simp]
lemma errorMarkPass_value (qi qj : Fin 9) (b : Board) (i j : Fin 9) :
    (errorMarkPass qi qj b i j).value = (b i j).value := by
  unfold errorMarkPass
  by_cases h : markTrigger qi qj b = true
  · rw [if_pos h]; dsimp only; split_ifs <;> rfl
  · rw [if_neg h]

@[simp]
lemma errorMarkPass_locked (qi qj : Fin 9) (b : Board) (i j : Fin 9) :
    (errorMarkPass qi qj b i j).locked = (b i j).locked := by
  unfold errorMarkPass
  by_cases h : markTrigger qi qj b = true
  · rw [if_pos h]; dsimp only; split_ifs <;> rfl
  · rw [if_neg h]

@[simp]
lemma errorMarkPass_selected (qi qj : Fin 9) (b : Board) (i j : Fin 9) :
    (errorMarkPass qi qj b i j).selected = (b i j).selected := by
  unfold errorMarkPass
  by_cases h : markTrigger qi qj b = true
  · rw [if_pos h]; dsimp only; split_ifs <;> rfl
  · rw [if_neg h]

@[simp]
lemma errorMarkPass_related (qi qj : Fin 9) (b : Board) (i j : Fin 9) :
    (errorMarkPass qi qj b i j).related = (b i j).related := by
  unfold errorMarkPass
  by_cases h : markTrigger qi qj b = true
  · rw [if_pos h]; dsimp only; split_ifs <;> rfl
  · rw [if_neg h]

@[simp]
lemma errorMarkPass_relatedNumber (qi qj : Fin 9) (b : Board) (i j : Fin 9) :
    (errorMarkPass qi qj b i j).relatedNumber = (b i j).relatedNumber := by
  unfold errorMarkPass
  by_cases h : markTrigger qi qj b = true
  · rw [if_pos h]; dsimp only; split_ifs <;> rfl
  · rw [if_neg h]

/-! ## Facts about `selectInnerCell` -/

@[simp]
lemma selectInnerCell_value (qi qj : Fin 9) (s : GameState) (i j : Fin 9) :
    ((selectInnerCell qi qj s).board i j).value = (s.board i j).value := by
  simp [selectInnerCell]

@[simp]
lemma selectInnerCell_locked (qi qj : Fin 9) (s : GameState) (i j : Fin 9) :
    ((selectInnerCell qi qj s).board i j).locked = (s.board i j).locked := by
  simp [selectInnerCell]

@[simp]
lemma selectInnerCell_actionHistory (qi qj : Fin 9) (s : GameState) :
    (selectInnerCell qi qj s).actionHistory = s.actionHistory := rfl

@[simp]
lemma selectInnerCell_unsolvedBoard (qi qj : Fin 9) (s : GameState) :
    (selectInnerCell qi qj s).unsolvedBoard = s.unsolvedBoard := rfl

@[simp]
lemma selectInnerCell_hintCount (qi qj : Fin 9) (s : GameState) :
    (selectInnerCell qi qj s).hintCount = s.hintCount := rfl

@[simp]
lemma selectInnerCell_finished (qi qj : Fin 9) (s : GameState) :
    (selectInnerCell qi qj s).finished = s.finished := rfl

@[simp]
lemma selectInnerCell_selectedCell (qi qj : Fin 9) (s : GameState) :
    (selectInnerCell qi qj s).selectedCell = some (qi, qj) := rfl

/-- C1: the coordinate mapping of `getCellPosition` (box and in-box index to
row and column) and the mapping of `getInnerCellButton` (row and column back
to box and in-box index) are exact mutual inverses on `[0,9) × [0,9)`. -/
theorem coordinate_mapper_roundtrip :
    ∀ a b : Fin 9,
      toBoxInBox (toRowCol a.val b.val).1 (toRowCol a.val b.val).2 = (a.val, b.val) ∧
      toRowCol (toBoxInBox a.val b.val).1 (toBoxInBox a.val b.val).2 = (a.val, b.val) := by
  decide

/-- C2: the completion check of `handleNumberInput` is true exactly when all
81 cells are nonempty and none carries the `error` attribute; moreover it is
recomputed from the live board on every accepted entry (the game is finished
after an input exactly when it was already finished or the resulting board
passes the check). -/
theorem isBoardComplete_correct :
    (∀ b : Board,
      isBoardComplete b = true ↔ ∀ i j : Fin 9, (b i j).value ≠ 0 ∧ (b i j).error = false) ∧
    (∀ (s : GameState) (q : Fin 9 × Fin 9) (n : Nat),
      s.selectedCell = some q → (s.board q.1 q.2).locked = false →
      (handleNumberInput n s).finished
        = (s.finished || isBoardComplete (handleNumberInput n s).board)) := by
  constructor
  · intro b
    simp only [isBoardComplete, List.all_eq_true, List.mem_finRange, Bool.and_eq_true,
      Bool.not_eq_true', decide_eq_true_eq]
    constructor
    · intro h i j
      exact ⟨(h i (by simp) j (by simp)).2, (h i (by simp) j (by simp)).1⟩
    · intro h i _ j _
      exact ⟨(h i j).2, (h i j).1⟩
  · intro s q n hq hlock
    unfold handleNumberInput
    rw [hq]
    simp only [hlock, Bool.false_eq_true, if_false]
    split_ifs <;> simp [*]

@[simp]
lemma applyHighlights_selected (qi qj : Fin 9) (b : Board) (i j : Fin 9) :
    (applyHighlights qi qj b i j).selected = decide (i = qi ∧ j = qj) := rfl

@[simp]
lemma applyHighlights_related (qi qj : Fin 9) (b : Board) (i j : Fin 9) :
    (applyHighlights qi qj b i j).related =
      (decide (¬(i = qi ∧ j = qj)) &&
        ((decide (i.val / 3 = qi.val / 3) && decide (j.val / 3 = qj.val / 3)) ||
          decide (i = qi) || decide (j = qj))) := rfl

@[simp]
lemma applyHighlights_relatedNumber (qi qj : Fin 9) (b : Board) (i j : Fin 9) :
    (applyHighlights qi qj b i j).relatedNumber =
      (decide (¬(i = qi ∧ j = qj)) &&
        decide ((b qi qj).value ≠ 0) && decide ((b i j).value = (b qi qj).value)) := rfl

lemma applyHighlights_hl (qi qj : Fin 9) (b : Board) (i j : Fin 9) :
    ((applyHighlights qi qj b i j).selected || (applyHighlights qi qj b i j).related)
      = hlIdx qi qj i j := rfl

@[simp]
lemma getBoardStateVals_true (b : Board) (i j : Fin 9) :
    getBoardStateVals true b i j = (b i j).value := by
  unfold getBoardStateVals
  split_ifs with h
  · rfl
  · simp only [Bool.true_or, Bool.true_and, decide_eq_true_eq] at h
    omega

/-- Functional characterization of the error clearing pass. -/
lemma errorClearPass_error (b : Board) (i j : Fin 9) :
    (errorClearPass b i j).error =
      ((b i j).error && (!((b i j).selected || (b i j).related) ||
        (decide ((b i j).value ≠ 0) && hasDuplicate (getBoardStateVals true b) i j))) := by
  unfold errorClearPass
  split_ifs with h1 h2 h3
  · simp only [Bool.and_eq_true] at h1
    simp [h1.1, h1.2, h2]
  · simp only [Bool.and_eq_true] at h1
    simp [h1.1, h1.2, h2, h3]
  · simp only [Bool.and_eq_true] at h1
    simp [h1.1, h1.2, h2, h3]
  · rcases he : (b i j).error with _ | _
    · simp
    · have hhl : ((b i j).selected || (b i j).related) = false := by
        rcases hb : ((b i j).selected || (b i j).related) with _ | _
        · rfl
        · exact absurd (by rw [hb, he]; rfl) h1
      simp [hhl]

/-- Functional characterization of the final error pass. -/
lemma errorMarkPass_error (qi qj : Fin 9) (b : Board) (i j : Fin 9) :
    (errorMarkPass qi qj b i j).error =
      ((b i j).error || (markTrigger qi qj b &&
        (((b i j).selected || (b i j).related) && decide ((b i j).value = (b qi qj).value)))) := by
  unfold errorMarkPass
  by_cases ht : markTrigger qi qj b = true
  · rw [if_pos ht]
    dsimp only
    split_ifs with hc
    · simp [ht, hc]
    · simp only [Bool.not_eq_true] at hc
      simp [ht, hc]
  · simp only [Bool.not_eq_true] at ht
    simp [ht]

/-- The final error pass never clears an error. -/
lemma errorMarkPass_error_mono (qi qj : Fin 9) (b : Board) (i j : Fin 9)
    (h : (b i j).error = true) : (errorMarkPass qi qj b i j).error = true := by
  rw [errorMarkPass_error, h, Bool.true_or]

/-- Existential characterization of the final error pass guard. -/
lemma markTrigger_eq_true_iff (qi qj : Fin 9) (b : Board) :
    markTrigger qi qj b = true ↔
      ∃ i j : Fin 9, ((b i j).selected || (b i j).related) = true ∧ ¬(i = qi ∧ j = qj) ∧
        (b i j).value ≠ 0 ∧ (b i j).value = (b qi qj).value := by
  simp only [markTrigger, List.any_eq_true, List.mem_finRange, true_and,
    Bool.and_eq_true, decide_eq_true_eq]
  constructor
  · rintro ⟨i, j, ⟨⟨hhl, hne⟩, hv⟩, hveq⟩
    exact ⟨i, j, hhl, hne, hv, hveq⟩
  · rintro ⟨i, j, hhl, hne, hv, hveq⟩
    exact ⟨i, j, ⟨⟨hhl, hne⟩, hv⟩, hveq⟩

/-- The guard only depends on the `selected`, `selected-related` and
content fields of the board. -/
lemma markTrigger_congr (qi qj : Fin 9) (b c : Board)
    (hsel : ∀ i j, (b i j).selected = (c i j).selected)
    (hrel : ∀ i j, (b i j).related = (c i j).related)
    (hval : ∀ i j, (b i j).value = (c i j).value) :
    markTrigger qi qj b = markTrigger qi qj c := by
  unfold markTrigger
  simp only [hsel, hrel, hval]

/-- Existential characterization of the duplicate scan. -/
lemma hasDuplicate_eq_true_iff (v : Fin 9 → Fin 9 → Nat) (r c : Fin 9) :
    hasDuplicate v r c = true ↔
      ((∃ j, j ≠ c ∧ v r j = v r c) ∨ (∃ i, i ≠ r ∧ v i c = v r c) ∨
        ∃ i j, ((i.val / 3 = r.val / 3 ∧ j.val / 3 = c.val / 3) ∧ (i ≠ r ∨ j ≠ c)) ∧
          v i j = v r c) := by
  simp only [hasDuplicate, Bool.or_eq_true, List.any_eq_true, List.mem_finRange, true_and,
    Bool.and_eq_true, decide_eq_true_eq, Bool.or_eq_true]
  constructor
  · rintro ((⟨j, hj, he⟩ | ⟨i, hi, he⟩) | ⟨i, j, ⟨⟨hb1, hb2⟩, hne⟩, he⟩)
    · exact Or.inl ⟨j, hj, he⟩
    · exact Or.inr (Or.inl ⟨i, hi, he⟩)
    · exact Or.inr (Or.inr ⟨i, j, ⟨⟨hb1, hb2⟩, hne⟩, he⟩)
  · rintro (⟨j, hj, he⟩ | ⟨i, hi, he⟩ | ⟨i, j, ⟨⟨hb1, hb2⟩, hne⟩, he⟩)
    · exact Or.inl (Or.inl ⟨j, hj, he⟩)
    · exact Or.inl (Or.inr ⟨i, hi, he⟩)
    · exact Or.inr ⟨i, j, ⟨⟨hb1, hb2⟩, hne⟩, he⟩

/-- A cell sharing the row, column or box of (r, c) with the same value
makes the duplicate scan succeed. -/
lemma hasDuplicate_of_peer (v : Fin 9 → Fin 9 → Nat) (r c x y : Fin 9)
    (hne : ¬(x = r ∧ y = c))
    (hshare : x = r ∨ y = c ∨ (x.val / 3 = r.val / 3 ∧ y.val / 3 = c.val / 3))
    (he : v x y = v r c) : hasDuplicate v r c = true := by
  rw [hasDuplicate_eq_true_iff]
  rcases hshare with h | h | h
  · subst h
    exact Or.inl ⟨y, fun hyc => hne ⟨rfl, hyc⟩, he⟩
  · subst h
    exact Or.inr (Or.inl ⟨x, fun hxr => hne ⟨hxr, rfl⟩, he⟩)
  · refine Or.inr (Or.inr ⟨x, y, ⟨h, ?_⟩, he⟩)
    by_cases hx : x = r
    · exact Or.inr fun hy => hne ⟨hx, hy⟩
    · exact Or.inl hx

/-- The duplicate scan only depends on the value matrix pointwise. -/
lemma hasDuplicate_congr (v w : Fin 9 → Fin 9 → Nat) (h : ∀ i j, v i j = w i j)
    (r c : Fin 9) : hasDuplicate v r c = hasDuplicate w r c := by
  have hv : v = w := funext fun i => funext fun j => h i j
  rw [hv]

lemma selectInnerCell_selected_eq (qi qj : Fin 9) (s : GameState) (i j : Fin 9) :
    ((selectInnerCell qi qj s).board i j).selected = decide (i = qi ∧ j = qj) := by
  simp [selectInnerCell]

lemma selectInnerCell_related_eq (qi qj : Fin 9) (s : GameState) (i j : Fin 9) :
    ((selectInnerCell qi qj s).board i j).related =
      (decide (¬(i = qi ∧ j = qj)) &&
        ((decide (i.val / 3 = qi.val / 3) && decide (j.val / 3 = qj.val / 3)) ||
          decide (i = qi) || decide (j = qj))) := by
  simp [selectInnerCell]

lemma selectInnerCell_relatedNumber_eq (qi qj : Fin 9) (s : GameState) (i j : Fin 9) :
    ((selectInnerCell qi qj s).board i j).relatedNumber =
      (decide (¬(i = qi ∧ j = qj)) &&
        decide ((s.board qi qj).value ≠ 0) &&
        decide ((s.board i j).value = (s.board qi qj).value)) := by
  simp [selectInnerCell]

lemma selectInnerCell_hl_eq (qi qj : Fin 9) (s : GameState) (i j : Fin 9) :
    (((selectInnerCell qi qj s).board i j).selected ||
      ((selectInnerCell qi qj s).board i j).related) = hlIdx qi qj i j := by
  rw [selectInnerCell_selected_eq, selectInnerCell_related_eq]; rfl

lemma hlIdx_true_iff (qi qj i j : Fin 9) :
    hlIdx qi qj i j = true ↔
      ((i.val / 3 = qi.val / 3 ∧ j.val / 3 = qj.val / 3) ∨ i = qi ∨ j = qj) := by
  simp only [hlIdx, Bool.or_eq_true, Bool.and_eq_true, decide_eq_true_eq]
  constructor
  · rintro (⟨h1, h2⟩ | ⟨-, ((⟨h1, h2⟩ | h) | h)⟩)
    · exact Or.inr (Or.inl h1)
    · exact Or.inl ⟨h1, h2⟩
    · exact Or.inr (Or.inl h)
    · exact Or.inr (Or.inr h)
  · intro h
    by_cases hq : i = qi ∧ j = qj
    · exact Or.inl hq
    · refine Or.inr ⟨hq, ?_⟩
      rcases h with ⟨h1, h2⟩ | h | h
      · exact Or.inl (Or.inl ⟨h1, h2⟩)
      · exact Or.inl (Or.inr h)
      · exact Or.inr h

/-- Outside the highlight set of the new selection, `selectInnerCell` keeps
the `error` attribute unchanged. -/
lemma selectInnerCell_error_not_hl (qi qj : Fin 9) (s : GameState) (i j : Fin 9)
    (hhl : hlIdx qi qj i j = false) :
    ((selectInnerCell qi qj s).board i j).error = (s.board i j).error := by
  show (errorMarkPass qi qj (errorClearPass
    (applyHighlights qi qj (clearBoardHighlighting false s.board))) i j).error = _
  rw [errorMarkPass_error, errorClearPass_error]
  have h1 : ((applyHighlights qi qj (clearBoardHighlighting false s.board) i j).selected ||
      (applyHighlights qi qj (clearBoardHighlighting false s.board) i j).related) = false := by
    rw [applyHighlights_hl, hhl]
  have h2 : ((errorClearPass (applyHighlights qi qj (clearBoardHighlighting false s.board)) i j).selected ||
      (errorClearPass (applyHighlights qi qj (clearBoardHighlighting false s.board)) i j).related) = false := by
    rw [errorClearPass_selected, errorClearPass_related, h1]
  rw [h1, h2]
  simp

/-- Inside the highlight set of the new selection, an `error` attribute
present after `selectInnerCell` certifies a nonempty content and an actual
duplicate on the (unchanged) value matrix. -/
lemma selectInnerCell_error_hl (qi qj : Fin 9) (s : GameState) (i j : Fin 9)
    (hhl : hlIdx qi qj i j = true)
    (herr : ((selectInnerCell qi qj s).board i j).error = true) :
    (s.board i j).value ≠ 0 ∧
      hasDuplicate (fun a b => (s.board a b).value) i j = true := by
  have hvals : ∀ a b, getBoardStateVals true
      (applyHighlights qi qj (clearBoardHighlighting false s.board)) a b
        = (s.board a b).value := by intro a b; simp
  have hdup_congr : ∀ a b, hasDuplicate (getBoardStateVals true
      (applyHighlights qi qj (clearBoardHighlighting false s.board))) a b
        = hasDuplicate (fun x y => (s.board x y).value) a b := by
    intro a b
    exact hasDuplicate_congr _ _ (fun x y => hvals x y) a b
  set b2 := applyHighlights qi qj (clearBoardHighlighting false s.board) with hb2
  set b3 := errorClearPass b2 with hb3
  have herr2 : (errorMarkPass qi qj b3 i j).error = true := herr
  rw [errorMarkPass_error] at herr2
  have hval2 : ∀ a b, (b3 a b).value = (s.board a b).value := by
    intro a b; rw [hb3, errorClearPass_value]; simp [hb2]
  rw [Bool.or_eq_true] at herr2
  rcases herr2 with h3 | hmark
  · -- the error survived the clearing pass
    rw [hb3, errorClearPass_error, Bool.and_eq_true] at h3
    obtain ⟨herrb2, hrest⟩ := h3
    have hhl2 : ((b2 i j).selected || (b2 i j).related) = true := by
      rw [hb2, applyHighlights_hl, hhl]
    rw [hhl2] at hrest
    simp only [Bool.not_true, Bool.false_or, Bool.and_eq_true, decide_eq_true_eq] at hrest
    refine ⟨by simpa [hb2] using hrest.1, ?_⟩
    rw [← hdup_congr i j]
    exact hrest.2
  · -- the error was added by the final pass
    rw [Bool.and_eq_true] at hmark
    obtain ⟨htrig, hcond⟩ := hmark
    rw [Bool.and_eq_true] at hcond
    obtain ⟨hhl3, hvm⟩ := hcond
    have hvm2 : (s.board i j).value = (s.board qi qj).value := by
      have := of_decide_eq_true hvm
      rwa [hval2, hval2] at this
    obtain ⟨x, y, hxhl, hxne, hxv, hxeq⟩ := (markTrigger_eq_true_iff qi qj b3).mp htrig
    have hxhl2 : hlIdx qi qj x y = true := by
      rw [hb3, errorClearPass_selected, errorClearPass_related, hb2, applyHighlights_hl] at hxhl
      exact hxhl
    have hxv2 : (s.board x y).value ≠ 0 := by rwa [hval2] at hxv
    have hxeq2 : (s.board x y).value = (s.board qi qj).value := by
      have := hxeq; rwa [hval2, hval2] at this
    have hq_ne : (s.board qi qj).value ≠ 0 := hxeq2 ▸ hxv2
    have hvz : (s.board i j).value ≠ 0 := by rw [hvm2]; exact hq_ne
    refine ⟨hvz, ?_⟩
    by_cases hij : i = qi ∧ j = qj
    · -- the selected cell itself: the trigger witness is a peer
      obtain ⟨hi, hj⟩ := hij
      subst hi; subst hj
      have hxshare := (hlIdx_true_iff i j x y).mp hxhl2
      refine hasDuplicate_of_peer _ _ _ x y hxne ?_ ?_
      · rcases hxshare with ⟨h1, h2⟩ | h | h
        · exact Or.inr (Or.inr ⟨h1, h2⟩)
        · exact Or.inl h
        · exact Or.inr (Or.inl h)
      · rw [hxeq2]
    · -- a related cell: the selected cell is a peer
      have hshare := (hlIdx_true_iff qi qj i j).mp hhl
      refine hasDuplicate_of_peer _ _ _ qi qj ?_ ?_ ?_
      · rintro ⟨h1, h2⟩
        exact hij ⟨h1.symm, h2.symm⟩
      · rcases hshare with ⟨h1, h2⟩ | h | h
        · exact Or.inr (Or.inr ⟨h1.symm, h2.symm⟩)
        · exact Or.inl h.symm
        · exact Or.inr (Or.inl h.symm)
      · exact hvm2.symm

/-- C4: for a cell with a nonzero value, the duplicate scan of
`selectInnerCell` succeeds exactly when some other cell in the same row,
column or 3 by 3 box holds an equal value; the existential form shows the
result does not depend on any scan order. -/
theorem hasDuplicate_iff_peer_exists :
    ∀ (v : Fin 9 → Fin 9 → Nat) (r c : Fin 9), v r c ≠ 0 →
      (hasDuplicate v r c = true ↔
        ∃ x y : Fin 9, ¬(x = r ∧ y = c) ∧
          (x = r ∨ y = c ∨ (x.val / 3 = r.val / 3 ∧ y.val / 3 = c.val / 3)) ∧
          v x y = v r c) := by
  intro v r c _
  constructor
  · intro h
    rw [hasDuplicate_eq_true_iff] at h
    rcases h with ⟨j, hj, he⟩ | ⟨i, hi, he⟩ | ⟨i, j, ⟨hbox, _⟩, he⟩
    · exact ⟨r, j, fun hc => hj hc.2, Or.inl rfl, he⟩
    · exact ⟨i, c, fun hc => hi hc.1, Or.inr (Or.inl rfl), he⟩
    · refine ⟨i, j, ?_, Or.inr (Or.inr hbox), he⟩
      rename_i hne
      rcases hne with h | h
      · exact fun hc => h hc.1
      · exact fun hc => h hc.2
  · rintro ⟨x, y, hne, hshare, he⟩
    exact hasDuplicate_of_peer v r c x y hne hshare he

/-- C4 witness: on the all-sevens matrix the scan succeeds at (0,0), with
(0,1) as the certifying peer. -/
theorem hasDuplicate_iff_peer_exists_witness :
    dupVals 0 0 ≠ 0 ∧
      (hasDuplicate dupVals 0 0 = true ↔
        ∃ x y : Fin 9, ¬(x = 0 ∧ y = 0) ∧
          (x = 0 ∨ y = 0 ∨ (x.val / 3 = (0 : Fin 9).val / 3 ∧ y.val / 3 = (0 : Fin 9).val / 3)) ∧
          dupVals x y = dupVals 0 0) :=
  ⟨by decide, hasDuplicate_iff_peer_exists dupVals 0 0 (by decide)⟩

/-- C9 counterexample: `handleGameExit` leaves a nonempty action history and
an unrestored hint budget behind, so exit does not clear the history or
reset the hints. -/
theorem handleGameExit_keeps_history_cex :
    ¬((handleGameExit exitSample).actionHistory = [] ∧
      (handleGameExit exitSample).hintCount = defaultStarterHints) := by
  decide

/-- C9 (amended): `handleGameExit` unconditionally empties and unlocks every
cell, resets the timer, the start time, the board id, the cached unsolved
board and the difficulty, and marks the game finished — but it leaves the
action history, the hint budget and the selection unchanged (those are only
reset by the next `handleGameStart`). -/
theorem handleGameExit_spec :
    ∀ s : GameState,
      (∀ i j : Fin 9, ((handleGameExit s).board i j).value = 0 ∧
        ((handleGameExit s).board i j).locked = false) ∧
      (handleGameExit s).timer = 0 ∧ (handleGameExit s).timeStarted = none ∧
      (handleGameExit s).finished = true ∧ (handleGameExit s).boardID = 0 ∧
      (handleGameExit s).unsolvedBoard = none ∧ (handleGameExit s).difficulty = "" ∧
      (handleGameExit s).actionHistory = s.actionHistory ∧
      (handleGameExit s).hintCount = s.hintCount ∧
      (handleGameExit s).selectedCell = s.selectedCell := by
  intro s
  refine ⟨fun i j => ?_, rfl, rfl, rfl, rfl, rfl, rfl, rfl, rfl, rfl⟩
  constructor <;> simp [handleGameExit, fillGrid]

/-- C8 counterexample: erasing (input 0) an already empty editable cell is a
no-op on the value, yet an action is appended to the history, because the
JavaScript strict comparison `null !== 0` holds. -/
theorem noop_erase_is_logged_cex :
    ((handleNumberInput 0 sampleBase).board 0 0).value = (sampleBase.board 0 0).value ∧
      (handleNumberInput 0 sampleBase).actionHistory ≠ sampleBase.actionHistory := by
  constructor
  · decide
  · decide

/-- What `handleNumberInput` does to the action history on an editable
selected cell: an entry is appended exactly when the strict comparison
`previousValue !== number` holds. -/
lemma handleNumberInput_actionHistory (n : Nat) (s : GameState) (q : Fin 9 × Fin 9)
    (hq : s.selectedCell = some q) (hlock : (s.board q.1 q.2).locked = false) :
    (handleNumberInput n s).actionHistory =
      if (if (s.board q.1 q.2).value = 0 then none else some ((s.board q.1 q.2).value)) ≠ some n
      then s.actionHistory ++
        [⟨q, if (s.board q.1 q.2).value = 0 then none else some ((s.board q.1 q.2).value)⟩]
      else s.actionHistory := by
  unfold handleNumberInput
  rw [hq]
  simp only [hlock, Bool.false_eq_true, if_false]
  split_ifs <;> simp [*]

/-- C8 (amended): on an editable selected cell, the history is unchanged
exactly when the entered number equals the current value AND the cell is
nonempty; in every other case (a genuine value change, but also the no-op
erase of an already empty cell, since the recorded `null` is never strictly
equal to the number 0) exactly one `{cell, previousValue}` entry is
appended. -/
theorem actionHistory_append_rule :
    ∀ (s : GameState) (q : Fin 9 × Fin 9) (n : Nat),
      s.selectedCell = some q →
      (s.board q.1 q.2).locked = false →
      ((handleNumberInput n s).actionHistory = s.actionHistory ↔
        ((s.board q.1 q.2).value = n ∧ (s.board q.1 q.2).value ≠ 0)) ∧
      (((s.board q.1 q.2).value ≠ n ∨ (s.board q.1 q.2).value = 0) →
        (handleNumberInput n s).actionHistory = s.actionHistory ++
          [⟨q, if (s.board q.1 q.2).value = 0 then none
               else some ((s.board q.1 q.2).value)⟩]) := by
  intro s q n hq hlock
  rw [handleNumberInput_actionHistory n s q hq hlock]
  by_cases h0 : (s.board q.1 q.2).value = 0
  · rw [if_pos h0, if_pos (by simp)]
    constructor
    · constructor
      · intro h
        exact absurd (congrArg List.length h) (by simp)
      · rintro ⟨-, hv⟩
        exact absurd h0 hv
    · intro _
      rfl
  · rw [if_neg h0]
    by_cases hn : (s.board q.1 q.2).value = n
    · rw [if_neg (by simp [hn])]
      constructor
      · constructor
        · intro _
          exact ⟨hn, h0⟩
        · intro _
          rfl
      · rintro (h | h)
        · exact absurd hn h
        · exact absurd h h0
    · rw [if_pos (by simp [hn])]
      constructor
      · constructor
        · intro h
          exact absurd (congrArg List.length h) (by simp)
        · rintro ⟨hv, -⟩
          exact absurd hv hn
      · intro _
        rfl

/-- C8 witness: entering 3 at the empty editable selected cell of the fresh
state appends exactly one entry recording the previous `null`. -/
theorem actionHistory_append_rule_witness :
    sampleBase.selectedCell = some (0, 0) ∧ (sampleBase.board 0 0).locked = false ∧
      (((handleNumberInput 3 sampleBase).actionHistory = sampleBase.actionHistory ↔
        ((sampleBase.board 0 0).value = 3 ∧ (sampleBase.board 0 0).value ≠ 0)) ∧
      (((sampleBase.board 0 0).value ≠ 3 ∨ (sampleBase.board 0 0).value = 0) →
        (handleNumberInput 3 sampleBase).actionHistory = sampleBase.actionHistory ++
          [⟨(0, 0), if (sampleBase.board 0 0).value = 0 then none
               else some ((sampleBase.board 0 0).value)⟩])) :=
  ⟨rfl, by decide, actionHistory_append_rule sampleBase (0, 0) 3 rfl (by decide)⟩

lemma applyHintSuccess_hintCount (r : HintAPIResponse) (s : GameState) :
    (applyHintSuccess r s).hintCount = s.hintCount := rfl

lemma handleHint_hintCount (r : HintAPIResponse) (s : GameState) :
    (handleHint r s).hintCount = if s.hintCount ≤ 0 then s.hintCount else s.hintCount - 1 := by
  unfold handleHint
  split_ifs with h
  · rfl
  · exact applyHintSuccess_hintCount r _

/-- C7: a hint request with an exhausted budget returns the state completely
unchanged (the only effect is the transient shake animation); a nonnegative
budget stays nonnegative; and from the starting budget of 5, five granted
hints leave the budget at 0 and the sixth request is the identity on the
whole game state. -/
theorem hint_budget_guard :
    (∀ (s : GameState) (r : HintAPIResponse), s.hintCount ≤ 0 → handleHint r s = s) ∧
    (∀ (s : GameState) (r : HintAPIResponse), 0 ≤ s.hintCount → 0 ≤ (handleHint r s).hintCount) ∧
    (∀ (s : GameState) (r₁ r₂ r₃ r₄ r₅ r₆ : HintAPIResponse),
      s.hintCount = defaultStarterHints →
      (handleHint r₅ (handleHint r₄ (handleHint r₃ (handleHint r₂ (handleHint r₁ s))))).hintCount
        = 0 ∧
      handleHint r₆ (handleHint r₅ (handleHint r₄ (handleHint r₃ (handleHint r₂ (handleHint r₁ s)))))
        = handleHint r₅ (handleHint r₄ (handleHint r₃ (handleHint r₂ (handleHint r₁ s))))) := by
  have hid : ∀ (s : GameState) (r : HintAPIResponse), s.hintCount ≤ 0 → handleHint r s = s := by
    intro s r h
    unfold handleHint
    rw [if_pos h]
  refine ⟨hid, ?_, ?_⟩
  · intro s r h
    rw [handleHint_hintCount]
    split_ifs with h2
    · exact h
    · omega
  · intro s r₁ r₂ r₃ r₄ r₅ r₆ h5
    have c1 : (handleHint r₁ s).hintCount = 4 := by
      rw [handleHint_hintCount, h5]; decide
    have c2 : (handleHint r₂ (handleHint r₁ s)).hintCount = 3 := by
      rw [handleHint_hintCount, c1]; decide
    have c3 : (handleHint r₃ (handleHint r₂ (handleHint r₁ s))).hintCount = 2 := by
      rw [handleHint_hintCount, c2]; decide
    have c4 : (handleHint r₄ (handleHint r₃ (handleHint r₂ (handleHint r₁ s)))).hintCount = 1 := by
      rw [handleHint_hintCount, c3]; decide
    have c5 : (handleHint r₅ (handleHint r₄ (handleHint r₃ (handleHint r₂
        (handleHint r₁ s))))).hintCount = 0 := by
      rw [handleHint_hintCount, c4]; decide
    exact ⟨c5, hid _ r₆ (le_of_eq c5)⟩

/-- C7 witness: from the fresh state with 5 hints, five granted hints leave
0 and a sixth request is the identity. -/
theorem hint_budget_guard_witness :
    sampleBase.hintCount = defaultStarterHints ∧
      ((handleHint hintResp (handleHint hintResp (handleHint hintResp (handleHint hintResp
          (handleHint hintResp sampleBase))))).hintCount = 0 ∧
        handleHint hintResp (handleHint hintResp (handleHint hintResp (handleHint hintResp
            (handleHint hintResp (handleHint hintResp sampleBase)))))
          = handleHint hintResp (handleHint hintResp (handleHint hintResp (handleHint hintResp
              (handleHint hintResp sampleBase))))) :=
  ⟨rfl, hint_budget_guard.2.2 sampleBase hintResp hintResp hintResp hintResp hintResp hintResp rfl⟩

/-- C2 witness: a concrete editable selected cell, for the second part of
the completion theorem. -/
theorem isBoardComplete_correct_witness :
    sampleBase.selectedCell = some (0, 0) ∧ (sampleBase.board 0 0).locked = false ∧
      (handleNumberInput 1 sampleBase).finished
        = (sampleBase.finished || isBoardComplete (handleNumberInput 1 sampleBase).board) :=
  ⟨rfl, by decide, isBoardComplete_correct.2 sampleBase (0, 0) 1 rfl (by decide)⟩

/-- `handleNumberInput` never changes the value or the lock of a locked
cell. -/
lemma handleNumberInput_locked_cell (n : Nat) (s : GameState) (p : Fin 9 × Fin 9)
    (hp : (s.board p.1 p.2).locked = true) :
    ((handleNumberInput n s).board p.1 p.2).value = (s.board p.1 p.2).value ∧
    ((handleNumberInput n s).board p.1 p.2).locked = true := by
  unfold handleNumberInput
  cases hsel : s.selectedCell with
  | none => exact ⟨rfl, hp⟩
  | some q =>
    dsimp only
    by_cases hl : (s.board q.1 q.2).locked = true
    · rw [if_pos hl]
      exact ⟨rfl, hp⟩
    · rw [if_neg hl]
      have hpq : ¬(p.1 = q.1 ∧ p.2 = q.2) := by
        rintro ⟨h1, h2⟩
        apply hl
        rw [← h1, ← h2]
        exact hp
      constructor <;>
        · split_ifs <;>
            simp [selectInnerCell_value, selectInnerCell_locked, setCellValue, hpq, hp]

/-- `handleUndoAction` never changes the value or the lock of a locked
cell. -/
lemma handleUndoAction_locked_cell (s : GameState) (p : Fin 9 × Fin 9)
    (hp : (s.board p.1 p.2).locked = true) :
    ((handleUndoAction s).board p.1 p.2).value = (s.board p.1 p.2).value ∧
    ((handleUndoAction s).board p.1 p.2).locked = true := by
  unfold handleUndoAction
  cases hlast : s.actionHistory.getLast? with
  | none => exact ⟨rfl, hp⟩
  | some a =>
    dsimp only
    by_cases hl : (s.board a.cell.1 a.cell.2).locked = true
    · rw [if_pos hl]
      exact ⟨rfl, hp⟩
    · rw [if_neg hl]
      have hpa : ¬(p.1 = a.cell.1 ∧ p.2 = a.cell.2) := by
        rintro ⟨h1, h2⟩
        apply hl
        rw [← h1, ← h2]
        exact hp
      cases h2 : s.actionHistory.dropLast.getLast? with
      | some a2 =>
        constructor <;>
          simp [selectInnerCell_value, selectInnerCell_locked, hpa, hp]
      | none =>
        constructor <;> simp [hpa, hp]

lemma applyEditOp_locked_cell (s : GameState) (op : EditOp) (p : Fin 9 × Fin 9)
    (hp : (s.board p.1 p.2).locked = true) :
    ((applyEditOp s op).board p.1 p.2).value = (s.board p.1 p.2).value ∧
    ((applyEditOp s op).board p.1 p.2).locked = true := by
  cases op with
  | input n => exact handleNumberInput_locked_cell n s p hp
  | undo => exact handleUndoAction_locked_cell s p hp
  | select i j =>
    exact ⟨selectInnerCell_value i j s p.1 p.2, (selectInnerCell_locked i j s p.1 p.2).trans hp⟩

lemma applyEditOps_locked_cell (ops : List EditOp) :
    ∀ (s : GameState) (p : Fin 9 × Fin 9), (s.board p.1 p.2).locked = true →
      ((applyEditOps s ops).board p.1 p.2).value = (s.board p.1 p.2).value ∧
      ((applyEditOps s ops).board p.1 p.2).locked = true := by
  induction ops with
  | nil => exact fun s p hp => ⟨rfl, hp⟩
  | cons op ops ih =>
    intro s p hp
    obtain ⟨hv, hl⟩ := applyEditOp_locked_cell s op p hp
    obtain ⟨hv2, hl2⟩ := ih (applyEditOp s op) p hl
    exact ⟨hv2.trans hv, hl2⟩

/-- C6: a granted hint locks its target cell with the hint value, and a
locked cell is immune to every later sequence of number inputs (including
erase), undos and selections: its value and its locked marker survive
unchanged. -/
theorem hint_cells_locked_and_immune :
    (∀ (s : GameState) (r : HintAPIResponse), 0 < s.hintCount →
      ((handleHint r s).board (hintTarget r.parentCellIndex r.innerCellIndex).1
          (hintTarget r.parentCellIndex r.innerCellIndex).2).locked = true ∧
      ((handleHint r s).board (hintTarget r.parentCellIndex r.innerCellIndex).1
          (hintTarget r.parentCellIndex r.innerCellIndex).2).value = r.hint) ∧
    (∀ (s : GameState) (p : Fin 9 × Fin 9), (s.board p.1 p.2).locked = true →
      ∀ ops : List EditOp,
        ((applyEditOps s ops).board p.1 p.2).value = (s.board p.1 p.2).value ∧
        ((applyEditOps s ops).board p.1 p.2).locked = true) := by
  constructor
  · intro s r h
    unfold handleHint
    rw [if_neg (by omega)]
    unfold applyHintSuccess
    constructor <;> simp [selectInnerCell_locked, selectInnerCell_value]
  · intro s p hp ops
    exact applyEditOps_locked_cell ops s p hp

/-- C6 witness: the locked cell (1,1) of `lockSample` survives an input and
an undo; a hint at (0,0) locks that cell with value 7. -/
theorem hint_cells_locked_and_immune_witness :
    (0 < lockSample.hintCount ∧
      ((handleHint hintResp lockSample).board (hintTarget 0 0).1
          (hintTarget 0 0).2).locked = true ∧
      ((handleHint hintResp lockSample).board (hintTarget 0 0).1
          (hintTarget 0 0).2).value = 7) ∧
    ((lockSample.board 1 1).locked = true ∧
      ((applyEditOps lockSample [EditOp.input 3, EditOp.undo]).board 1 1).value
        = (lockSample.board 1 1).value ∧
      ((applyEditOps lockSample [EditOp.input 3, EditOp.undo]).board 1 1).locked = true) :=
  ⟨⟨by decide, hint_cells_locked_and_immune.1 lockSample hintResp (by decide)⟩,
   ⟨by decide,
    hint_cells_locked_and_immune.2 lockSample (1, 1) (by decide) [EditOp.input 3, EditOp.undo]⟩⟩

@[simp]
lemma setCellValue_locked (qi qj : Fin 9) (v : Nat) (b : Board) (i j : Fin 9) :
    (setCellValue qi qj v b i j).locked = (b i j).locked := by
  unfold setCellValue; split_ifs <;> rfl

@[simp]
lemma setCellValue_error (qi qj : Fin 9) (v : Nat) (b : Board) (i j : Fin 9) :
    (setCellValue qi qj v b i j).error = (b i j).error := by
  unfold setCellValue; split_ifs <;> rfl

/-- `handleNumberInput` never changes any lock marker. -/
lemma handleNumberInput_locked_eq (n : Nat) (s : GameState) (i j : Fin 9) :
    ((handleNumberInput n s).board i j).locked = (s.board i j).locked := by
  unfold handleNumberInput
  cases hsel : s.selectedCell with
  | none => rfl
  | some q =>
    dsimp only
    split_ifs <;> simp

/-- Re-selecting some cell after the undo restore: if the restored cell had
no `error` attribute going in, any `error` on it afterwards certifies an
actual duplicate on the (unchanged) value matrix. -/
lemma undo_reselect_error (a2i a2j : Fin 9) (S1 : GameState) (q : Fin 9 × Fin 9)
    (hq0 : (S1.board q.1 q.2).error = false)
    (herr : ((selectInnerCell a2i a2j S1).board q.1 q.2).error = true) :
    hasDuplicate (fun a b => ((selectInnerCell a2i a2j S1).board a b).value) q.1 q.2
      = true := by
  cases hhl : hlIdx a2i a2j q.1 q.2 with
  | true =>
    obtain ⟨-, hdup⟩ := selectInnerCell_error_hl a2i a2j S1 q.1 q.2 hhl herr
    have hvals : ∀ a b, ((selectInnerCell a2i a2j S1).board a b).value = (S1.board a b).value :=
      fun a b => selectInnerCell_value a2i a2j S1 a b
    rw [hasDuplicate_congr _ _ hvals q.1 q.2]
    exact hdup
  | false =>
    rw [selectInnerCell_error_not_hl a2i a2j S1 q.1 q.2 hhl, hq0] at herr
    exact absurd herr (by simp)

/-- The core of the undo analysis: undoing a state whose history ends with
a `{cell := q, previousValue := prev}` entry for an unlocked cell restores
`prev` into q's content, pops exactly that entry, and any `error` attribute
still on q afterwards certifies an actual duplicate of the restored value;
when nothing else remains in the history, q carries no `error` at all. -/
lemma handleUndoAction_after_push (X : GameState) (q : Fin 9 × Fin 9) (prev : Option Nat)
    (hist : List PlayerAction)
    (hh : X.actionHistory = hist ++ [⟨q, prev⟩])
    (hlock : (X.board q.1 q.2).locked = false) :
    ((handleUndoAction X).board q.1 q.2).value = prev.getD 0 ∧
    (handleUndoAction X).actionHistory = hist ∧
    (((handleUndoAction X).board q.1 q.2).error = true →
      hasDuplicate (fun a b => ((handleUndoAction X).board a b).value) q.1 q.2 = true) ∧
    (hist = [] → ((handleUndoAction X).board q.1 q.2).error = false) := by
  obtain ⟨bX, selX, histX, unsX, hcX, tmX, tsX, finX, idX, diffX⟩ := X
  simp only at hh hlock
  subst hh
  unfold handleUndoAction
  simp only [List.getLast?_concat, List.dropLast_concat, hlock, Bool.false_eq_true, if_false]
  cases hh2 : hist.getLast? with
  | none =>
    dsimp only
    refine ⟨by cases prev <;> simp, rfl, ?_, fun _ => by simp⟩
    intro herr
    exact absurd herr (by simp)
  | some a2 =>
    dsimp only
    refine ⟨by cases prev <;> simp, by simp, ?_, ?_⟩
    · intro herr
      exact undo_reselect_error a2.cell.1 a2.cell.2 _ q (by simp) herr
    · intro h0
      rw [h0] at hh2
      exact absurd hh2 (by simp)

/-- C3: on an editable selected cell, a value-changing input followed
immediately by undo restores the exact previous value (including
emptiness) and pops exactly the one recorded entry, leaving the history as
it was.  The `error` attribute gained from the edit is removed: when the
history becomes empty the cell carries no violation flag at all, and in
general any violation flag still present after the undo (re-)selection
certifies an actual duplicate of the restored value, never of the undone
input. -/
theorem setValue_then_undo_restores :
    ∀ (s : GameState) (q : Fin 9 × Fin 9) (n : Nat),
      s.selectedCell = some q →
      (s.board q.1 q.2).locked = false →
      (s.board q.1 q.2).value ≠ n →
      ((handleUndoAction (handleNumberInput n s)).board q.1 q.2).value
        = (s.board q.1 q.2).value ∧
      (handleUndoAction (handleNumberInput n s)).actionHistory = s.actionHistory ∧
      (((handleUndoAction (handleNumberInput n s)).board q.1 q.2).error = true →
        hasDuplicate
          (fun a b => ((handleUndoAction (handleNumberInput n s)).board a b).value)
          q.1 q.2 = true) ∧
      (s.actionHistory = [] →
        ((handleUndoAction (handleNumberInput n s)).board q.1 q.2).error = false) := by
  intro s q n hq hlock hval
  have hne : (if (s.board q.1 q.2).value = 0 then none
      else some ((s.board q.1 q.2).value)) ≠ some n := by
    by_cases h0 : (s.board q.1 q.2).value = 0
    · rw [if_pos h0]
      simp
    · rw [if_neg h0]
      simpa using hval
  have hh : (handleNumberInput n s).actionHistory = s.actionHistory ++
      [⟨q, if (s.board q.1 q.2).value = 0 then none else some ((s.board q.1 q.2).value)⟩] := by
    rw [handleNumberInput_actionHistory n s q hq hlock, if_pos hne]
  have hlockX : ((handleNumberInput n s).board q.1 q.2).locked = false := by
    rw [handleNumberInput_locked_eq]
    exact hlock
  obtain ⟨hv, hh2, herr, hemp⟩ :=
    handleUndoAction_after_push (handleNumberInput n s) q _ s.actionHistory hh hlockX
  refine ⟨?_, hh2, herr, hemp⟩
  rw [hv]
  by_cases h0 : (s.board q.1 q.2).value = 0
  · rw [if_pos h0]
    exact h0.symm
  · rw [if_neg h0]
    rfl

/-- C3 witness: entering 5 into the empty editable selected cell of the
fresh state and undoing restores emptiness, the empty history, and no
violation flag. -/
theorem setValue_then_undo_restores_witness :
    sampleBase.selectedCell = some (0, 0) ∧ (sampleBase.board 0 0).locked = false ∧
      (sampleBase.board 0 0).value ≠ 5 ∧
      (((handleUndoAction (handleNumberInput 5 sampleBase)).board 0 0).value
          = (sampleBase.board 0 0).value ∧
        (handleUndoAction (handleNumberInput 5 sampleBase)).actionHistory
          = sampleBase.actionHistory ∧
        (((handleUndoAction (handleNumberInput 5 sampleBase)).board 0 0).error = true →
          hasDuplicate
            (fun a b => ((handleUndoAction (handleNumberInput 5 sampleBase)).board a b).value)
            0 0 = true) ∧
        (sampleBase.actionHistory = [] →
          ((handleUndoAction (handleNumberInput 5 sampleBase)).board 0 0).error = false)) :=
  ⟨rfl, by decide, by decide,
   setValue_then_undo_restores sampleBase (0, 0) 5 rfl (by decide) (by decide)⟩

/-- The final error pass guard at the mark stage only depends on the value
matrix of the board the selection started from. -/
lemma select_stage_trigger_congr (qi qj : Fin 9) (B C : Board)
    (hv : ∀ a b, (B a b).value = (C a b).value) :
    markTrigger qi qj (errorClearPass (applyHighlights qi qj (clearBoardHighlighting false B)))
      = markTrigger qi qj
          (errorClearPass (applyHighlights qi qj (clearBoardHighlighting false C))) :=
  markTrigger_congr qi qj _ _ (fun i j => by simp) (fun i j => by simp) (fun i j => by simp [hv])

/-- When the final error pass guard fires, every highlighted cell whose
content matches the selected cell gets the `error` attribute. -/
lemma selectInnerCell_error_marked (qi qj : Fin 9) (s : GameState) (i j : Fin 9)
    (ht : markTrigger qi qj
        (errorClearPass (applyHighlights qi qj (clearBoardHighlighting false s.board))) = true)
    (hhl : hlIdx qi qj i j = true)
    (hvm : (s.board i j).value = (s.board qi qj).value) :
    ((selectInnerCell qi qj s).board i j).error = true := by
  show (errorMarkPass qi qj (errorClearPass (applyHighlights qi qj
    (clearBoardHighlighting false s.board))) i j).error = true
  rw [errorMarkPass_error, ht]
  have h1 : ((errorClearPass (applyHighlights qi qj (clearBoardHighlighting false s.board))
        i j).selected ||
      (errorClearPass (applyHighlights qi qj (clearBoardHighlighting false s.board))
        i j).related) = true := by
    rw [errorClearPass_selected, errorClearPass_related, applyHighlights_hl]
    exact hhl
  have h2 : decide ((errorClearPass (applyHighlights qi qj (clearBoardHighlighting false
        s.board)) i j).value
      = (errorClearPass (applyHighlights qi qj (clearBoardHighlighting false s.board))
          qi qj).value) = true := by
    simp only [errorClearPass_value, applyHighlights_value, clearBoardHighlighting_value]
    exact decide_eq_true hvm
  rw [h1, h2]
  simp

/-- The `error` attribute of every cell is a fixed point of re-selecting
the same cell. -/
lemma selectInnerCell_error_idem (qi qj : Fin 9) (s : GameState) (i j : Fin 9) :
    ((selectInnerCell qi qj (selectInnerCell qi qj s)).board i j).error
      = ((selectInnerCell qi qj s).board i j).error := by
  cases hhl : hlIdx qi qj i j with
  | false => exact selectInnerCell_error_not_hl qi qj _ i j hhl
  | true =>
    cases hE1 : ((selectInnerCell qi qj s).board i j).error with
    | true =>
      obtain ⟨hv, hdup⟩ := selectInnerCell_error_hl qi qj s i j hhl hE1
      show (errorMarkPass qi qj (errorClearPass (applyHighlights qi qj
        (clearBoardHighlighting false (selectInnerCell qi qj s).board))) i j).error = true
      rw [errorMarkPass_error, errorClearPass_error]
      have e2 : (applyHighlights qi qj (clearBoardHighlighting false
          (selectInnerCell qi qj s).board) i j).error = true := by
        rw [applyHighlights_error, clearBoardHighlighting_error]
        simpa using hE1
      have hhl2 : ((applyHighlights qi qj (clearBoardHighlighting false
            (selectInnerCell qi qj s).board) i j).selected ||
          (applyHighlights qi qj (clearBoardHighlighting false
            (selectInnerCell qi qj s).board) i j).related) = true := by
        rw [applyHighlights_hl]
        exact hhl
      have hv2 : decide ((applyHighlights qi qj (clearBoardHighlighting false
          (selectInnerCell qi qj s).board) i j).value ≠ 0) = true := by
        simp only [applyHighlights_value, clearBoardHighlighting_value, selectInnerCell_value]
        exact decide_eq_true hv
      have hdup2 : hasDuplicate (getBoardStateVals true (applyHighlights qi qj
          (clearBoardHighlighting false (selectInnerCell qi qj s).board))) i j = true := by
        rw [hasDuplicate_congr _ (fun a b => (s.board a b).value) (fun a b => by simp) i j]
        exact hdup
      rw [e2, hhl2, hv2, hdup2]
      simp
    | false =>
      show (errorMarkPass qi qj (errorClearPass (applyHighlights qi qj
        (clearBoardHighlighting false (selectInnerCell qi qj s).board))) i j).error = false
      rw [errorMarkPass_error, errorClearPass_error]
      have e2 : (applyHighlights qi qj (clearBoardHighlighting false
          (selectInnerCell qi qj s).board) i j).error = false := by
        rw [applyHighlights_error, clearBoardHighlighting_error]
        simpa using hE1
      rw [e2]
      simp only [Bool.false_and, Bool.false_or]
      cases htr : markTrigger qi qj (errorClearPass (applyHighlights qi qj
          (clearBoardHighlighting false (selectInnerCell qi qj s).board))) with
      | false => simp
      | true =>
        rw [Bool.true_and]
        have hH : ((errorClearPass (applyHighlights qi qj (clearBoardHighlighting false
              (selectInnerCell qi qj s).board)) i j).selected ||
            (errorClearPass (applyHighlights qi qj (clearBoardHighlighting false
              (selectInnerCell qi qj s).board)) i j).related) = true := by
          rw [errorClearPass_selected, errorClearPass_related, applyHighlights_hl]
          exact hhl
        rw [hH, Bool.true_and]
        cases hvm : decide ((s.board i j).value = (s.board qi qj).value) with
        | false =>
          simp only [errorClearPass_value, applyHighlights_value,
            clearBoardHighlighting_value, selectInnerCell_value]
          exact hvm
        | true =>
          exfalso
          have htr1 : markTrigger qi qj (errorClearPass (applyHighlights qi qj
              (clearBoardHighlighting false s.board))) = true := by
            rw [select_stage_trigger_congr qi qj s.board (selectInnerCell qi qj s).board
              (fun a b => (selectInnerCell_value qi qj s a b).symm)]
            exact htr
          have hEtrue := selectInnerCell_error_marked qi qj s i j htr1 hhl
            (of_decide_eq_true hvm)
          rw [hEtrue] at hE1
          exact absurd hE1 (by simp)

/-- C5: selection is idempotent — re-selecting the same cell leaves the
whole game state (every highlight flag and every violation flag on every
cell, and the selection) unchanged. -/
theorem select_idempotent :
    ∀ (s : GameState) (qi qj : Fin 9),
      selectInnerCell qi qj (selectInnerCell qi qj s) = selectInnerCell qi qj s := by
  intro s qi qj
  have hboard : (selectInnerCell qi qj (selectInnerCell qi qj s)).board
      = (selectInnerCell qi qj s).board := by
    funext i j
    have hv := selectInnerCell_value qi qj (selectInnerCell qi qj s) i j
    have hl := selectInnerCell_locked qi qj (selectInnerCell qi qj s) i j
    have hsel : ((selectInnerCell qi qj (selectInnerCell qi qj s)).board i j).selected
        = ((selectInnerCell qi qj s).board i j).selected := by
      rw [selectInnerCell_selected_eq, selectInnerCell_selected_eq]
    have hrel : ((selectInnerCell qi qj (selectInnerCell qi qj s)).board i j).related
        = ((selectInnerCell qi qj s).board i j).related := by
      rw [selectInnerCell_related_eq, selectInnerCell_related_eq]
    have hrn : ((selectInnerCell qi qj (selectInnerCell qi qj s)).board i j).relatedNumber
        = ((selectInnerCell qi qj s).board i j).relatedNumber := by
      rw [selectInnerCell_relatedNumber_eq, selectInnerCell_relatedNumber_eq]
      simp only [selectInnerCell_value]
    have herr := selectInnerCell_error_idem qi qj s i j
    exact Cell.ext hv hl hsel hrel hrn herr
  exact GameState.ext hboard rfl rfl rfl rfl rfl rfl rfl rfl rfl

lemma handleNumberInput_unsolvedBoard (n : Nat) (s : GameState) :
    (handleNumberInput n s).unsolvedBoard = s.unsolvedBoard := by
  unfold handleNumberInput
  cases hsel : s.selectedCell with
  | none => rfl
  | some q =>
    dsimp only
    split_ifs <;> rfl

lemma handleUndoAction_unsolvedBoard (s : GameState) :
    (handleUndoAction s).unsolvedBoard = s.unsolvedBoard := by
  unfold handleUndoAction
  cases hlast : s.actionHistory.getLast? with
  | none => rfl
  | some a =>
    dsimp only
    split_ifs with hl
    · rfl
    · cases h2 : s.actionHistory.dropLast.getLast? with
      | some a2 => rfl
      | none => rfl

/-- `handleUndoAction` never changes any lock marker. -/
lemma handleUndoAction_locked_eq (s : GameState) (i j : Fin 9) :
    ((handleUndoAction s).board i j).locked = (s.board i j).locked := by
  unfold handleUndoAction
  cases hlast : s.actionHistory.getLast? with
  | none => rfl
  | some a =>
    dsimp only
    split_ifs with hl
    · rfl
    · cases h2 : s.actionHistory.dropLast.getLast? with
      | some a2 =>
        rw [selectInnerCell_locked]
        dsimp only
        split_ifs <;> rfl
      | none =>
        show (clearBoardHighlighting true _ i j).locked = _
        rw [clearBoardHighlighting_locked]
        split_ifs <;> rfl

/-- Frame rule for the cached-snapshot invariant. -/
lemma unsolvedInv_of_frame (s t : GameState)
    (hInv : UnsolvedInv s)
    (hu : t.unsolvedBoard = s.unsolvedBoard)
    (hl : ∀ i j, (t.board i j).locked = (s.board i j).locked)
    (hv : ∀ i j, (s.board i j).locked = true → (t.board i j).value = (s.board i j).value) :
    UnsolvedInv t := by
  obtain ⟨g, hg, hmatch, hnz⟩ := hInv
  refine ⟨g, by rw [hu, hg], ?_, ?_⟩
  · intro i j
    rw [hmatch i j, hl i j]
    by_cases hli : (s.board i j).locked = true
    · rw [if_pos hli, if_pos hli, hv i j hli]
    · rw [if_neg hli, if_neg hli]
  · intro i j hli
    rw [hl i j] at hli
    rw [hv i j hli]
    exact hnz i j hli

lemma unsolvedInv_select (qi qj : Fin 9) (s : GameState) (h : UnsolvedInv s) :
    UnsolvedInv (selectInnerCell qi qj s) :=
  unsolvedInv_of_frame s _ h (selectInnerCell_unsolvedBoard qi qj s)
    (fun i j => selectInnerCell_locked qi qj s i j)
    (fun i j _ => selectInnerCell_value qi qj s i j)

lemma unsolvedInv_input (n : Nat) (s : GameState) (h : UnsolvedInv s) :
    UnsolvedInv (handleNumberInput n s) :=
  unsolvedInv_of_frame s _ h (handleNumberInput_unsolvedBoard n s)
    (fun i j => handleNumberInput_locked_eq n s i j)
    (fun i j hli => (handleNumberInput_locked_cell n s (i, j) hli).1)

lemma unsolvedInv_undo (s : GameState) (h : UnsolvedInv s) :
    UnsolvedInv (handleUndoAction s) :=
  unsolvedInv_of_frame s _ h (handleUndoAction_unsolvedBoard s)
    (fun i j => handleUndoAction_locked_eq s i j)
    (fun i j hli => (handleUndoAction_locked_cell s (i, j) hli).1)

/-- `getBoardState(false)` is exactly the locked-cells projection whenever
locked cells are nonempty. -/
lemma getBoardStateVals_false_eq (b : Board)
    (hnz : ∀ i j, (b i j).locked = true → (b i j).value ≠ 0) (i j : Fin 9) :
    getBoardStateVals false b i j
      = if (b i j).locked = true then (b i j).value else 0 := by
  unfold getBoardStateVals
  by_cases hli : (b i j).locked = true
  · simp [hli, hnz i j hli]
  · simp only [Bool.not_eq_true] at hli
    simp [hli]

lemma unsolvedInv_hintBoard (s : GameState) (b : Board)
    (hnz : ∀ i j, (b i j).locked = true → (b i j).value ≠ 0) :
    UnsolvedInv { s with board := b, unsolvedBoard := some (getBoardStateVals false b) } := by
  refine ⟨getBoardStateVals false b, rfl, ?_, ?_⟩
  · intro i j
    dsimp only
    exact getBoardStateVals_false_eq b hnz i j
  · intro i j
    dsimp only
    exact hnz i j

lemma unsolvedInv_applyHintSuccess (r : HintAPIResponse) (s : GameState) (hr : r.hint ≠ 0)
    (h : UnsolvedInv s) : UnsolvedInv (applyHintSuccess r s) := by
  obtain ⟨g, hg, hmatch, hnz⟩ := h
  unfold applyHintSuccess
  dsimp only
  apply unsolvedInv_select
  apply unsolvedInv_hintBoard
  intro i j hli
  by_cases hq : i = (hintTarget r.parentCellIndex r.innerCellIndex).1 ∧
      j = (hintTarget r.parentCellIndex r.innerCellIndex).2
  · simp only [if_pos hq]
    exact hr
  · simp only [if_pos, if_neg hq] at hli ⊢
    exact hnz i j hli

lemma unsolvedInv_hint (r : HintAPIResponse) (s : GameState) (hr : r.hint ≠ 0)
    (h : UnsolvedInv s) : UnsolvedInv (handleHint r s) := by
  unfold handleHint
  split_ifs with hc
  · exact h
  · apply unsolvedInv_applyHintSuccess r _ hr
    obtain ⟨g, hg, hmatch, hnz⟩ := h
    exact ⟨g, hg, hmatch, hnz⟩

/-- The cell produced by the reset refill (`fillGrid` then
`clearBoardHighlighting(true)`). -/
lemma resetBoard_cell (g : Fin 9 → Fin 9 → Nat) (b : Board) (i j : Fin 9) :
    clearBoardHighlighting true (fillGrid g b) i j
      = if g i j ≠ 0 then ⟨g i j, true, false, false, false, false⟩
        else ⟨0, false, false, false, false, false⟩ := by
  unfold clearBoardHighlighting fillGrid
  split_ifs <;> simp_all

/-- The cell produced by the game-start refill (`clearBoardHighlighting(true)`
then `fillGrid`). -/
lemma startBoard_cell (g : Fin 9 → Fin 9 → Nat) (b : Board) (i j : Fin 9) :
    fillGrid g (clearBoardHighlighting true b) i j
      = if g i j ≠ 0 then ⟨g i j, true, false, false, false, false⟩
        else ⟨0, false, false, false, false, false⟩ := by
  unfold clearBoardHighlighting fillGrid
  split_ifs <;> simp_all

lemma unsolvedInv_reset (s : GameState) (h : UnsolvedInv s) :
    UnsolvedInv (resetBoardAction s) := by
  obtain ⟨g, hg, hmatch, hnz⟩ := h
  unfold resetBoardAction
  rw [hg]
  refine ⟨g, rfl, ?_, ?_⟩
  · intro i j
    simp only [resetBoard_cell]
    by_cases hz : g i j = 0 <;> simp [hz]
  · intro i j
    simp only [resetBoard_cell]
    by_cases hz : g i j = 0 <;> simp [hz]

lemma unsolvedInv_start (id : Nat) (diff : String) (t : Nat) (g : Fin 9 → Fin 9 → Nat)
    (s0 : GameState) : UnsolvedInv (handleGameStartSuccess id diff t g s0) := by
  unfold handleGameStartSuccess
  refine ⟨g, rfl, ?_, ?_⟩
  · intro i j
    simp only [startBoard_cell]
    by_cases hz : g i j = 0 <;> simp [hz]
  · intro i j
    simp only [startBoard_cell]
    by_cases hz : g i j = 0 <;> simp [hz]

lemma unsolvedInv_playOp (s : GameState) (op : PlayOp) (h : UnsolvedInv s) :
    UnsolvedInv (applyPlayOp s op) := by
  cases op with
  | input n => exact unsolvedInv_input n s h
  | undo => exact unsolvedInv_undo s h
  | select i j => exact unsolvedInv_select i j s h
  | hint a b hv => exact unsolvedInv_hint ⟨a, b, hv.val + 1⟩ s (by simp) h
  | reset => exact unsolvedInv_reset s h

lemma unsolvedInv_playOps (ops : List PlayOp) :
    ∀ s : GameState, UnsolvedInv s → UnsolvedInv (applyPlayOps s ops) := by
  induction ops with
  | nil => exact fun s h => h
  | cons op ops ih => exact fun s h => ih (applyPlayOp s op) (unsolvedInv_playOp s op h)

/-- Under the cached-snapshot invariant, the reset button refills locked
cells with their current values, empties every other cell, clears all
flags, empties the history and deselects. -/
lemma resetBoardAction_of_inv (s : GameState) (h : UnsolvedInv s) :
    (∀ i j : Fin 9,
      ((s.board i j).locked = true →
        (resetBoardAction s).board i j
          = ⟨(s.board i j).value, true, false, false, false, false⟩) ∧
      ((s.board i j).locked = false →
        (resetBoardAction s).board i j = ⟨0, false, false, false, false, false⟩)) ∧
    (resetBoardAction s).actionHistory = [] ∧
    (resetBoardAction s).selectedCell = none := by
  obtain ⟨g, hg, hmatch, hnz⟩ := h
  unfold resetBoardAction
  rw [hg]
  refine ⟨?_, rfl, rfl⟩
  intro i j
  constructor
  · intro hli
    have hz : g i j ≠ 0 := by
      rw [hmatch i j, if_pos hli]
      exact hnz i j hli
    simp only [resetBoard_cell]
    rw [if_pos hz, hmatch i j, if_pos hli]
  · intro hli
    have hz : g i j = 0 := by
      rw [hmatch i j, hli]
      simp
    simp only [resetBoard_cell]
    rw [if_neg (by simp [hz])]

/-- C10: starting from any successful game start and after any sequence of
inputs, undos, selections, granted hints and resets, pressing the reset
button refills the grid with exactly the currently locked (given + hint)
cells — their values and lock markers unchanged — while every other cell
becomes empty and editable, every highlight and violation flag is cleared,
the action history is emptied and no cell is selected. -/
theorem reset_restores_locked_only :
    ∀ (s0 : GameState) (id : Nat) (diff : String) (t : Nat) (g : Fin 9 → Fin 9 → Nat)
      (ops : List PlayOp) (s r : GameState),
      s = applyPlayOps (handleGameStartSuccess id diff t g s0) ops →
      r = resetBoardAction s →
      (∀ i j : Fin 9,
        ((s.board i j).locked = true →
          r.board i j = ⟨(s.board i j).value, true, false, false, false, false⟩) ∧
        ((s.board i j).locked = false →
          r.board i j = ⟨0, false, false, false, false, false⟩)) ∧
      r.actionHistory = [] ∧ r.selectedCell = none := by
  intro s0 id diff t g ops s r hs hr
  subst hs
  subst hr
  exact resetBoardAction_of_inv _
    (unsolvedInv_playOps ops _ (unsolvedInv_start id diff t g s0))

/-- C10 witness: a concrete game start with one given at (0,0) and a
selection; after reset the given survives locked and the rest is empty. -/
theorem reset_restores_locked_only_witness :
    ((applyPlayOps (handleGameStartSuccess 1 "Easy" 0 startGrid sampleBase)
        [PlayOp.select 0 1]).board 0 0).locked = true ∧
    ((applyPlayOps (handleGameStartSuccess 1 "Easy" 0 startGrid sampleBase)
        [PlayOp.select 0 1]).board 2 2).locked = false ∧
    (resetBoardAction (applyPlayOps (handleGameStartSuccess 1 "Easy" 0 startGrid sampleBase)
        [PlayOp.select 0 1])).board 0 0
      = ⟨((applyPlayOps (handleGameStartSuccess 1 "Easy" 0 startGrid sampleBase)
          [PlayOp.select 0 1]).board 0 0).value, true, false, false, false, false⟩ ∧
    (resetBoardAction (applyPlayOps (handleGameStartSuccess 1 "Easy" 0 startGrid sampleBase)
        [PlayOp.select 0 1])).board 2 2 = ⟨0, false, false, false, false, false⟩ ∧
    (resetBoardAction (applyPlayOps (handleGameStartSuccess 1 "Easy" 0 startGrid sampleBase)
        [PlayOp.select 0 1])).actionHistory = [] ∧
    (resetBoardAction (applyPlayOps (handleGameStartSuccess 1 "Easy" 0 startGrid sampleBase)
        [PlayOp.select 0 1])).selectedCell = none :=
  ⟨by decide, by decide,
   ((reset_restores_locked_only sampleBase 1 "Easy" 0 startGrid [PlayOp.select 0 1]
      _ _ rfl rfl).1 0 0).1 (by decide),
   ((reset_restores_locked_only sampleBase 1 "Easy" 0 startGrid [PlayOp.select 0 1]
      _ _ rfl rfl).1 2 2).2 (by decide),
   (reset_restores_locked_only sampleBase 1 "Easy" 0 startGrid [PlayOp.select 0 1]
      _ _ rfl rfl).2.1,
   (reset_restores_locked_only sampleBase 1 "Easy" 0 startGrid [PlayOp.select 0 1]
      _ _ rfl rfl).2.2⟩
